import Mathlib

/-!
Verification development for the pgpool connection-pool core
(src/protocol/pool_pg_utils.c): startup-packet construction in
`make_persistent_db_connection`, the load-balancing node selector
`select_load_balancing_node` with `choose_db_node_id`, and the cached
version probe `Pgversion`.  The C functions are shallowly embedded as
executable Lean definitions; machine integers are modelled as `Nat`/`Int`
(the C values involved are small and never overflow) and doubles as `ℚ`
(the code only adds and compares weights, which is exact arithmetic).
-/

namespace PgpoolVerify

/-! ## C library modelling: `atoi(3)` -/

/-- The characters accepted by C `isspace` in the POSIX locale: space,
tab, newline, vertical tab, form feed, carriage return. -/
def cIsSpace (c : Char) : Bool :=
  c = ' ' || c = '\t' || c = '\n' || c = Char.ofNat 11 || c = Char.ofNat 12 || c = '\r'

/-- Accumulate decimal digits from the front of the list, stopping at the
first non-digit, as `atoi` does after the optional sign. -/
def parseDigits : List Char → Int → Int
  | [], acc => acc
  | c :: rest, acc =>
      if c.isDigit then parseDigits rest (acc * 10 + ((c.toNat : Int) - 48)) else acc

/-- C `atoi` on a character sequence: skip leading whitespace, read an
optional sign, then decimal digits, stopping at the first other character.
Modelled without overflow; every call site in this file feeds it at most a
few digits. -/
def atoiChars (cs : List Char) : Int :=
  match cs.dropWhile cIsSpace with
  | '-' :: rest => - parseDigits rest 0
  | '+' :: rest => parseDigits rest 0
  | rest => parseDigits rest 0

/-- C `atoi` on a NUL-free C string. -/
def atoiStr (s : String) : Int := atoiChars s.toList

/-! ## Startup packet construction (`make_persistent_db_connection`)

The function builds the V3 startup packet in a `char data[1024]` buffer by
sequential `snprintf` appends; `snprintf(&data[len], 1024 - len, "%s", s)`
returns `strlen(s)` and the code adds 1 for the NUL.  Whenever the guard
`len1 >= 1024 - len` fails to fire, the write was not truncated, so the
buffer contents are exactly the concatenation of the appended strings with
their NUL terminators.  The guards keep `len < 1024` throughout, so the C
`size_t` subtraction `sizeof(data) - len` agrees with `Nat` subtraction.
`user` and `dbname` are C strings, modelled as NUL-free `List Char`. -/

/-- Result of a successful startup-packet build: the bytes written into
`data[]`, the value of `len` at the moment `data[len++] = '\0'` executes,
and the recorded `cp->sp->len` (which adds 4 for the protocol-version
field preceding `data`). -/
structure StartupBuild where
  payload : List Char
  sentinelIndex : Nat
  spLen : Nat
deriving DecidableEq

/-- The NUL character. -/
def nulChar : Char := Char.ofNat 0

/-- Embedding of the packet-building phase of
`make_persistent_db_connection` (pool_pg_utils.c lines 100-141): the three
overflow guards with their exact `errdetail` texts, the final sentinel
write `data[len++] = '\0'`, and `cp->sp->len = len + 4`. -/
def mkStartup (user dbname : List Char) : Except String StartupBuild :=
  -- len = snprintf(data, 1024, "user") + 1
  let len0 : Nat := 5
  let len1a : Nat := user.length + 1
  if len1a ≥ 1024 - len0 then .error "user name is too long"
  else
    let lenA : Nat := len0 + len1a
    let len1b : Nat := 9      -- snprintf "database" returns 8, plus 1
    if len1b ≥ 1024 - lenA then .error "user name is too long"
    else
      let lenB : Nat := lenA + len1b
      let len1c : Nat := dbname.length + 1
      if len1c ≥ 1024 - lenB then .error "database name is too long"
      else
        let lenC : Nat := lenB + len1c
        .ok ⟨("user".toList ++ [nulChar]) ++ (user ++ [nulChar]) ++
              ("database".toList ++ [nulChar]) ++ (dbname ++ [nulChar]) ++ [nulChar],
             lenC, (lenC + 1) + 4⟩

/-- The payload layout stated by the spec: `"user" NUL <user> NUL
"database" NUL <dbname> NUL` followed by a final NUL. -/
def startupPayloadSpec (user dbname : List Char) : List Char :=
  ("user".toList ++ [nulChar]) ++ (user ++ [nulChar]) ++
    ("database".toList ++ [nulChar]) ++ (dbname ++ [nulChar]) ++ [nulChar]

/-- The recorded `StartupRecord` length of a successful build, if any. -/
def startupRecordLen (user dbname : List Char) : Option Nat :=
  match mkStartup user dbname with
  | .ok b => some b.spLen
  | .error _ => none

/-- The successful build for `user="bob"`, `dbname="app"`. -/
def bobAppBuild : StartupBuild :=
  ⟨("user".toList ++ [nulChar]) ++ ("bob".toList ++ [nulChar]) ++
     ("database".toList ++ [nulChar]) ++ ("app".toList ++ [nulChar]) ++ [nulChar],
   22, 27⟩

/-! ## Version probe (`Pgversion`)

`Pgversion` finds the first space of the `SELECT version()` result string,
then scans up to `VERSION_BUF_SIZE - 1 = 9` characters into `buf` stopping
at `'.'` (and for the later segments also at `' '`), applying `atoi` to
each segment.  The C loop does not test for the terminating NUL; since
`buf` is only consumed by `atoi`, which stops at the first NUL, stopping
the scan at end-of-string is an equivalent model on all inputs whose tail
is long enough for the scan (as all the spec inputs are). -/

/-- `strchr(result, ' ')` followed by `p++`: the characters after the
first space, or `none` when there is no space (a FATAL path). -/
def findAfterSpace : List Char → Option (List Char)
  | [] => none
  | c :: rest => if c = ' ' then some rest else findAfterSpace rest

/-- The scanning loop `while (i < limit && p && *p != stop1 ...) buf[i++] = *p++;`:
returns the copied segment and the remaining characters. -/
def scanWhile (stops : List Char) : Nat → List Char → List Char × List Char
  | 0, cs => ([], cs)
  | _ + 1, [] => ([], [])
  | n + 1, c :: rest =>
      if c ∈ stops then ([], c :: rest)
      else
        let p := scanWhile stops n rest
        (c :: p.1, p.2)

/-- Lines 558-579: when `v1 >= 10` the major is `v1 * 10` and scanning
resumes where the first segment stopped; otherwise the next
dot-or-space-terminated segment is folded in as the sub-decimal digit.
Returns the major value and the scan position. -/
def pgMajorRest (v1 : Int) (r1 : List Char) : Int × List Char :=
  if 10 ≤ v1 then (v1 * 10, r1)
  else
    let s2 := scanWhile ['.', ' '] 9 (r1.drop 1)
    (v1 * 10 + atoiChars s2.1, s2.2)

/-- Embedding of the parsing phase of `Pgversion` (pool_pg_utils.c lines
531-600): extract `v1` before the first `'.'`, reject `v1 < 6` or
`v1 > 100`, multiply by ten (folding in the next segment when `v1 < 10`),
then extract the minor segment and reject it outside `[0, 100]`.
`.error ()` stands for the `ereport(FATAL)` paths. -/
def pgparse (s : String) : Except Unit (Int × Int) :=
  match findAfterSpace s.toList with
  | none => .error ()
  | some rest =>
    let s1 := scanWhile ['.'] 9 rest
    let v1 := atoiChars s1.1
    if v1 < 6 ∨ 100 < v1 then .error ()
    else
      let mr := pgMajorRest v1 s1.2
      let s3 := scanWhile ['.', ' '] 9 (mr.2.drop 1)
      let minor := atoiChars s3.1
      if minor < 0 ∨ 100 < minor then .error ()
      else .ok (mr.1, minor)

/-- The first parsed segment `v1 = atoi(buf)` of the version string, when
the string contains a space. -/
def pgV1 (s : String) : Option Int :=
  (findAfterSpace s.toList).map (fun rest => atoiChars (scanWhile ['.'] 9 rest).1)

/-- The minor value `atoi(buf)` that `Pgversion` extracts, computed by the
same scans as `pgparse`, independent of the range checks. -/
def pgMinorOf (s : String) : Option Int :=
  match findAfterSpace s.toList with
  | none => none
  | some rest =>
    let s1 := scanWhile ['.'] 9 rest
    some (atoiChars (scanWhile ['.', ' '] 9
      ((pgMajorRest (atoiChars s1.1) s1.2).2.drop 1)).1)

/-! ## Version probe cache state

`Pgversion` keeps a `static PGVersion pgversion` record that is populated
on the first successful call and consulted first on every call.  The
`version_string` field is `strncpy`-bounded by a buffer size declared in a
header outside this excerpt; no claim depends on the bound, so the model
stores the whole lookup result. -/

/-- The static `PGVersion` record: `major`, `minor`, `version_string`. -/
structure PgVersionCache where
  major : Int
  minor : Int
  versionString : String
deriving DecidableEq

/-- Observable outcome of one call to `Pgversion`: the returned record
(`none` for the FATAL paths, which never return), the static record after
the call, and whether a relcache lookup (wire I/O) was performed. -/
structure PgVersionOutcome where
  ret : Option PgVersionCache
  state : PgVersionCache
  didLookup : Bool
deriving DecidableEq

/-- Embedding of one call to `Pgversion` (pool_pg_utils.c lines 483-610):
if the cache is populated (`major != 0`) return it at once with no
lookup; otherwise perform the relcache lookup, parse, and either populate
the cache or die FATAL (on which path the post-state is unobservable). -/
def pgversionCall (cache : PgVersionCache) (lookupResult : String) : PgVersionOutcome :=
  if cache.major ≠ 0 then ⟨some cache, cache, false⟩
  else
    match pgparse lookupResult with
    | .ok mm => ⟨some ⟨mm.1, mm.2, lookupResult⟩, ⟨mm.1, mm.2, lookupResult⟩, true⟩
    | .error _ => ⟨none, cache, true⟩

/-! ## Load-balance selector (`select_load_balancing_node`)

The selector reads the cluster topology through macros
(`NUM_BACKENDS`, `PRIMARY_NODE_ID`, `MASTER_NODE_ID`, `VALID_BACKEND`,
`VALID_BACKEND_RAW`, `BACKEND_INFO(i).backend_weight`), the
streaming-replication mode flag, and the redirect preference lists whose
regex matching is delegated to `regex_array_match`.  All of these are
environment inputs of one selection and are gathered in `LBState`; the
regex oracle's outcome is represented by the returned index together with
the `right_token`/`weight_token` fields of the matched entry.  The two
`random()/RAND_MAX` draws are the parameters `r1` and `rand2`. -/

structure LBState where
  numBackends : Nat
  primaryNodeId : Int
  masterNodeId : Int
  validBackend : Int → Bool
  validBackendRaw : Int → Bool
  backendWeight : Int → ℚ
  slMode : Bool
  hasDbRedirect : Bool
  dbMatchIndex : Int
  dbTokenRight : String
  dbTokenWeight : ℚ
  hasAppRedirect : Bool
  appNameSet : Bool
  appMatchIndex : Int
  appTokenRight : String
  appTokenWeight : ℚ

/-- Embedding of `choose_db_node_id` (pool_pg_utils.c lines 626-647):
`"primary"` with a live primary maps to `PRIMARY_NODE_ID`; `"standby"`
maps to `-1`; anything else goes through `atoi`, kept when inside
`[0, NUM_BACKENDS)` and otherwise left at the initial `MASTER_NODE_ID`. -/
def choose_db_node_id (st : LBState) (s : String) : Int :=
  if s = "primary" ∧ 0 ≤ st.primaryNodeId then st.primaryNodeId
  else if s = "standby" then -1
  else
    let tmp := atoiStr s
    if 0 ≤ tmp ∧ tmp < (st.numBackends : Int) then tmp else st.masterNodeId

/-- The value of `index_db` before any application-name override: the
regex match result whenever the database list is consulted (line 322),
`-1` otherwise. -/
def dbIndexDb (st : LBState) : Int :=
  if st.slMode ∧ st.hasDbRedirect then st.dbMatchIndex else -1

/-- The `suggested_node_id` contributed by the database rule alone
(lines 314-336): set only when the list is consulted, the regex matched,
and the resolved token is `-1` or a `VALID_BACKEND` node. -/
def dbSuggested (st : LBState) : Int :=
  if st.slMode ∧ st.hasDbRedirect ∧ 0 ≤ st.dbMatchIndex then
    (let tmp := choose_db_node_id st st.dbTokenRight
     if tmp = -1 ∨ (0 ≤ tmp ∧ st.validBackend tmp) then tmp else -2)
  else -2

/-- Embedding of the rule-matching phase of `select_load_balancing_node`
(lines 311-378): the final `(index_db, index_app, suggested_node_id)`
triple.  A firing application-name rule overrides `index_db` to `-1`
(line 364); its token overrides `suggested_node_id` only when it resolves
acceptably, otherwise the database rule's suggestion survives.  `-2` means
no rule suggested anything. -/
def computeSuggested (st : LBState) : Int × Int × Int :=
  if st.slMode ∧ st.hasAppRedirect ∧ st.appNameSet then
    (if 0 ≤ st.appMatchIndex then
      (let tmp := choose_db_node_id st st.appTokenRight
       ((-1 : Int), st.appMatchIndex,
        if tmp = -1 ∨ (0 ≤ tmp ∧ st.validBackend tmp) then tmp else dbSuggested st))
     else (dbIndexDb st, st.appMatchIndex, dbSuggested st))
  else (dbIndexDb st, (-1 : Int), dbSuggested st)

/-- The `continue` filter of the two fallback loops (line 442):
a node is skipped when `suggested == -1` and it is the primary, or when it
is the recorded `no_load_balance_node_id`. -/
def lbExcludedB (st : LBState) (sugg forb i : Int) : Bool :=
  decide ((sugg = -1 ∧ i = st.primaryNodeId) ∨ i = forb)

/-- A node the weighted draw can actually select: not skipped, raw-valid,
and of strictly positive weight. -/
def lbEligibleB (st : LBState) (sugg forb : Int) (i : Int) : Bool :=
  !lbExcludedB st sugg forb i && st.validBackendRaw i &&
    decide ((0 : ℚ) < st.backendWeight i)

/-- Embedding of the `total_weight` accumulation loop (lines 415-431),
iterating `i = 0 .. n-1`. -/
def twLoop (st : LBState) (sugg forb : Int) : Nat → ℚ
  | 0 => 0
  | n + 1 =>
      twLoop st sugg forb n +
        (if st.validBackendRaw (n : Int) then
          (if (n : Int) = forb then 0
           else if sugg = -1 then
             (if (n : Int) ≠ st.primaryNodeId then st.backendWeight (n : Int) else 0)
           else st.backendWeight (n : Int))
         else 0)

/-- The ascending list of backend ids `0 .. n-1`. -/
def intRange (n : Nat) : List Int := (List.range n).map (fun k => (k : Int))

/-- Embedding of the selection loop (lines 439-453): walk the ids in
ascending order, skip excluded ids, and at each raw-valid id of positive
weight either record it as selected (when `r >= total_weight`, i.e.
`acc ≤ r`) and add its weight to the running sum, or break. -/
def lbLoop (st : LBState) (sugg forb : Int) (r : ℚ) : List Int → Int → ℚ → Int
  | [], sel, _ => sel
  | i :: rest, sel, acc =>
      if lbExcludedB st sugg forb i then lbLoop st sugg forb r rest sel acc
      else if st.validBackendRaw i && decide ((0 : ℚ) < st.backendWeight i) then
        (if acc ≤ r then lbLoop st sugg forb r rest i (acc + st.backendWeight i) else sel)
      else lbLoop st sugg forb r rest sel acc

/-- Embedding of the whole weighted fallback (lines 413-457): compute the
total weight, scale the second random draw by it, and run the selection
loop with `selected_slot` initialised to `MASTER_NODE_ID`. -/
def fallbackSelect (st : LBState) (sugg forb : Int) (rand2 : ℚ) : Int :=
  let tw := twLoop st sugg forb st.numBackends
  lbLoop st sugg forb (rand2 * tw) (intRange st.numBackends) st.masterNodeId 0

/-- Embedding of the branching that follows rule matching (lines 380-457),
parameterised by the computed `(index_db, index_app, suggested_node_id)`:
the direct-hit branch, the standby-intent branch, and the weighted
fallback with `no_load_balance_node_id` recorded on a missed direct hit. -/
def selectAfterRules (st : LBState) (idb iap sugg : Int) (r1 rand2 : ℚ) : Int :=
  if 0 ≤ sugg then
    (if (0 ≤ idb ∧ r1 ≤ st.dbTokenWeight) ∨ (0 ≤ iap ∧ r1 ≤ st.appTokenWeight) then sugg
     else fallbackSelect st sugg sugg rand2)
  else if sugg = -1 then
    (if (0 ≤ idb ∧ st.dbTokenWeight < r1) ∨ (0 ≤ iap ∧ st.appTokenWeight < r1) then
       st.primaryNodeId
     else fallbackSelect st sugg (-2) rand2)
  else fallbackSelect st sugg (-2) rand2

/-- Embedding of `select_load_balancing_node` (lines 285-458). -/
def selectLoadBalancingNode (st : LBState) (r1 rand2 : ℚ) : Int :=
  selectAfterRules st (computeSuggested st).1 (computeSuggested st).2.1
    (computeSuggested st).2.2 r1 rand2

/-! ## Spec-side definitions for the fallback draw (claim C2's words) -/

/-- Spec-side total weight: the sum over every backend `i` with
`VALID_BACKEND_RAW(i)`, excluding the forbidden node and, when
`suggested == -1`, also the primary. -/
def spec_totalWeight (st : LBState) (sugg forb : Int) : ℚ :=
  ∑ i in Finset.range st.numBackends,
    (if st.validBackendRaw (i : Int) ∧ ¬ lbExcludedB st sugg forb (i : Int)
     then st.backendWeight (i : Int) else 0)

/-- Spec-side eligible list: ids in ascending order, with the same
exclusions as the weight sum and the zero-weight nodes skipped. -/
def spec_eligibles (st : LBState) (sugg forb : Int) : List Int :=
  (intRange st.numBackends).filter (fun i => lbEligibleB st sugg forb i)

/-- Spec-side walk over the eligible list: keep a running sum of weights,
select a node when the draw is at least the running sum before adding that
node's weight, and break as soon as the draw falls below it. -/
def spec_walk (w : Int → ℚ) (r : ℚ) : List Int → Int → ℚ → Int
  | [], sel, _ => sel
  | i :: rest, sel, acc =>
      if acc ≤ r then spec_walk w r rest i (acc + w i) else sel

/-- Each eligible id paired with the running sum of the weights of the
eligible ids before it. -/
def spec_presums (w : Int → ℚ) : List Int → ℚ → List (Int × ℚ)
  | [], _ => []
  | i :: rest, acc => (i, acc) :: spec_presums w rest (acc + w i)

/-- The last id whose paired running sum is at most the draw, with a
default for when there is none. -/
def spec_lastHit (r : ℚ) : List (Int × ℚ) → Int → Int
  | [], dflt => dflt
  | p :: rest, dflt =>
      if p.2 ≤ r then spec_lastHit r rest p.1 else spec_lastHit r rest dflt

/-! ## Concrete states used by counterexamples and witnesses -/

/-- One-backend cluster whose only node is both primary and master, with a
`"standby"` database-redirect rule of weight 1: `suggested` resolves to
`-1`, the draw `r1 = 1/2` falls through to the weighted fallback, which
finds no eligible standby and returns `MASTER_NODE_ID = PRIMARY_NODE_ID`. -/
def c3St : LBState :=
  ⟨1, 0, 0, fun i => i == 0, fun i => i == 0, fun _ => 1,
   true, true, 0, "standby", 1, false, false, -1, "", 0⟩

/-- Two-backend cluster (primary 0, standby 1) with a `"standby"` rule of
weight 1: the fallback must pick the standby. -/
def c3WitSt : LBState :=
  ⟨2, 0, 0, fun i => i == 0 || i == 1, fun i => i == 0 || i == 1, fun _ => 1,
   true, true, 0, "standby", 1, false, false, -1, "", 0⟩

/-- Two-backend cluster with a database rule naming node 1 at weight 0:
any positive draw misses the direct hit and node 1 becomes forbidden. -/
def c6St : LBState :=
  ⟨2, 0, 0, fun i => i == 0 || i == 1, fun i => i == 0 || i == 1, fun _ => 1,
   true, true, 0, "1", 0, false, false, -1, "", 0⟩

/-- Three-backend cluster with the database rule `("^app$", "2", 1.0)`
matched and backend 2 valid, as in the spec's scenario 3. -/
def c7St : LBState :=
  ⟨3, 0, 0, fun i => i == 0 || i == 1 || i == 2, fun i => i == 0 || i == 1 || i == 2,
   fun _ => 1, true, true, 0, "2", 1, false, false, -1, "", 0⟩

/-- Two-backend cluster with no primary (`PRIMARY_NODE_ID = -1`) whose
master is node 1: resolving the token `"primary"` falls into the `atoi`
branch and yields node 0, not the master. -/
def c8St : LBState :=
  ⟨2, -1, 1, fun i => i == 0 || i == 1, fun i => i == 0 || i == 1, fun _ => 1,
   true, false, -1, "", 0, false, false, -1, "", 0⟩

/-- Empty cluster: the fallback has no eligible node at all. -/
def c2WitSt : LBState :=
  ⟨0, -1, 7, fun _ => false, fun _ => false, fun _ => 1,
   false, false, -1, "", 0, false, false, -1, "", 0⟩

/-! ## Helper lemmas: the fallback loop computes the spec-side walk -/

theorem lbLoop_eq_spec_walk (st : LBState) (sugg forb : Int) (r : ℚ) :
    ∀ (l : List Int) (sel : Int) (acc : ℚ),
      lbLoop st sugg forb r l sel acc =
        spec_walk st.backendWeight r
          (l.filter (fun i => lbEligibleB st sugg forb i)) sel acc := by
  intro l
  induction l with
  | nil => intro sel acc; rfl
  | cons i rest ih =>
    intro sel acc
    by_cases hex : lbExcludedB st sugg forb i = true
    · have hel : lbEligibleB st sugg forb i = false := by
        simp [lbEligibleB, hex]
      simp only [lbLoop, hex, if_true, List.filter_cons, hel, Bool.false_eq_true,
        if_false]
      exact ih sel acc
    · have hexf : lbExcludedB st sugg forb i = false := by
        simpa using hex
      by_cases hv : (st.validBackendRaw i && decide ((0 : ℚ) < st.backendWeight i)) = true
      · have hel : lbEligibleB st sugg forb i = true := by
          simp only [lbEligibleB, hexf, Bool.not_false, Bool.true_and]
          exact hv
        simp only [lbLoop, hexf, Bool.false_eq_true, if_false, hv, if_true,
          List.filter_cons, hel, spec_walk]
        by_cases hle : acc ≤ r
        · rw [if_pos hle, if_pos hle, ih]
        · rw [if_neg hle, if_neg hle]
      · have hel : lbEligibleB st sugg forb i = false := by
          simp only [lbEligibleB, hexf, Bool.not_false, Bool.true_and]
          simpa using hv
        simp only [lbLoop, hexf, Bool.false_eq_true, if_false, hv, List.filter_cons,
          hel]
        exact ih sel acc

theorem spec_presums_le (w : Int → ℚ) :
    ∀ (l : List Int) (acc : ℚ), (∀ i ∈ l, 0 < w i) →
      ∀ p ∈ spec_presums w l acc, acc ≤ p.2 := by
  intro l
  induction l with
  | nil => intro acc _ p hp; simp [spec_presums] at hp
  | cons i rest ih =>
    intro acc hw p hp
    simp only [spec_presums, List.mem_cons] at hp
    rcases hp with rfl | hp
    · exact le_refl _
    · have h1 : 0 < w i := hw i (by simp)
      have h2 := ih (acc + w i) (fun j hj => hw j (by simp [hj])) p hp
      linarith

theorem spec_lastHit_default (r : ℚ) :
    ∀ (ps : List (Int × ℚ)) (dflt : Int), (∀ p ∈ ps, ¬ p.2 ≤ r) →
      spec_lastHit r ps dflt = dflt := by
  intro ps
  induction ps with
  | nil => intro dflt _; rfl
  | cons p rest ih =>
    intro dflt h
    have hp : ¬ p.2 ≤ r := h p (by simp)
    simp only [spec_lastHit, if_neg hp]
    exact ih dflt (fun q hq => h q (by simp [hq]))

theorem spec_walk_eq_lastHit (w : Int → ℚ) (r : ℚ) :
    ∀ (l : List Int) (sel : Int) (acc : ℚ), (∀ i ∈ l, 0 < w i) →
      spec_walk w r l sel acc = spec_lastHit r (spec_presums w l acc) sel := by
  intro l
  induction l with
  | nil => intro sel acc _; rfl
  | cons i rest ih =>
    intro sel acc hw
    simp only [spec_walk, spec_presums, spec_lastHit]
    by_cases h : acc ≤ r
    · rw [if_pos h, if_pos h]
      exact ih i (acc + w i) (fun j hj => hw j (by simp [hj]))
    · rw [if_neg h, if_neg h]
      refine (spec_lastHit_default r _ sel ?_).symm
      intro p hp hcon
      have hwi : 0 < w i := hw i (by simp)
      have hle := spec_presums_le w rest (acc + w i)
        (fun j hj => hw j (by simp [hj])) p hp
      apply h; linarith

theorem spec_walk_mem (w : Int → ℚ) (r : ℚ) :
    ∀ (l : List Int) (sel : Int) (acc : ℚ), spec_walk w r l sel acc ∈ sel :: l := by
  intro l
  induction l with
  | nil => intro sel acc; simp [spec_walk]
  | cons i rest ih =>
    intro sel acc
    simp only [spec_walk]
    by_cases h : acc ≤ r
    · rw [if_pos h]
      have h2 := ih i (acc + w i)
      simp only [List.mem_cons] at h2 ⊢
      tauto
    · rw [if_neg h]; simp

theorem tw_term_eq (st : LBState) (sugg forb i : Int) :
    (if st.validBackendRaw i then
       (if i = forb then 0
        else if sugg = -1 then
          (if i ≠ st.primaryNodeId then st.backendWeight i else 0)
        else st.backendWeight i)
     else 0) =
    (if st.validBackendRaw i ∧ ¬ lbExcludedB st sugg forb i
     then st.backendWeight i else 0) := by
  simp only [lbExcludedB, decide_eq_true_eq]
  split_ifs <;> tauto

theorem twLoop_eq_spec (st : LBState) (sugg forb : Int) :
    ∀ n : Nat, twLoop st sugg forb n =
      ∑ i in Finset.range n,
        (if st.validBackendRaw (i : Int) ∧ ¬ lbExcludedB st sugg forb (i : Int)
         then st.backendWeight (i : Int) else 0) := by
  intro n
  induction n with
  | zero => simp [twLoop]
  | succ n ih =>
    rw [Finset.sum_range_succ, ← ih, twLoop]
    rw [tw_term_eq st sugg forb (n : Int)]

theorem spec_totalWeight_nonneg (st : LBState) (sugg forb : Int)
    (hw : ∀ i, 0 ≤ st.backendWeight i) : 0 ≤ spec_totalWeight st sugg forb := by
  unfold spec_totalWeight
  apply Finset.sum_nonneg
  intro j _
  by_cases h : st.validBackendRaw (j : Int) ∧ ¬ lbExcludedB st sugg forb (j : Int)
  · rw [if_pos h]; exact hw _
  · rw [if_neg h]

theorem mem_spec_eligibles (st : LBState) (sugg forb i : Int)
    (h : i ∈ spec_eligibles st sugg forb) :
    ¬ ((sugg = -1 ∧ i = st.primaryNodeId) ∨ i = forb) ∧
      st.validBackendRaw i = true ∧ 0 < st.backendWeight i := by
  unfold spec_eligibles at h
  rw [List.mem_filter] at h
  have h2 := h.2
  simp only [lbEligibleB, lbExcludedB, Bool.and_eq_true, Bool.not_eq_true',
    decide_eq_false_iff_not, decide_eq_true_eq] at h2
  exact ⟨h2.1.1, h2.1.2, h2.2⟩

theorem fallbackSelect_char (st : LBState) (sugg forb : Int) (rand2 : ℚ) :
    fallbackSelect st sugg forb rand2 =
      spec_lastHit (rand2 * spec_totalWeight st sugg forb)
        (spec_presums st.backendWeight (spec_eligibles st sugg forb) 0)
        st.masterNodeId := by
  unfold fallbackSelect
  rw [twLoop_eq_spec]
  rw [lbLoop_eq_spec_walk]
  rw [show ((intRange st.numBackends).filter (fun i => lbEligibleB st sugg forb i)) =
        spec_eligibles st sugg forb from rfl]
  rw [show (∑ i in Finset.range st.numBackends,
        (if st.validBackendRaw (i : Int) ∧ ¬ lbExcludedB st sugg forb (i : Int)
         then st.backendWeight (i : Int) else 0)) = spec_totalWeight st sugg forb from rfl]
  apply spec_walk_eq_lastHit
  intro i hi
  exact (mem_spec_eligibles st sugg forb i hi).2.2

theorem fallbackSelect_mem_or_master (st : LBState) (sugg forb : Int) (rand2 : ℚ)
    (hr : 0 ≤ rand2) (hw : ∀ i, 0 ≤ st.backendWeight i) :
    (spec_eligibles st sugg forb = [] →
       fallbackSelect st sugg forb rand2 = st.masterNodeId) ∧
    (spec_eligibles st sugg forb ≠ [] →
       fallbackSelect st sugg forb rand2 ∈ spec_eligibles st sugg forb) := by
  have hbase : fallbackSelect st sugg forb rand2 =
      spec_walk st.backendWeight (rand2 * twLoop st sugg forb st.numBackends)
        (spec_eligibles st sugg forb) st.masterNodeId 0 := by
    unfold fallbackSelect
    rw [lbLoop_eq_spec_walk]
    rfl
  constructor
  · intro hE
    rw [hbase, hE]
    rfl
  · intro hE
    obtain ⟨i, rest, hE'⟩ : ∃ i rest, spec_eligibles st sugg forb = i :: rest := by
      cases h : spec_eligibles st sugg forb with
      | nil => exact absurd h hE
      | cons a l => exact ⟨a, l, rfl⟩
    have hr0 : (0 : ℚ) ≤ rand2 * twLoop st sugg forb st.numBackends := by
      apply mul_nonneg hr
      rw [twLoop_eq_spec]
      rw [show (∑ i in Finset.range st.numBackends,
            (if st.validBackendRaw (i : Int) ∧ ¬ lbExcludedB st sugg forb (i : Int)
             then st.backendWeight (i : Int) else 0)) = spec_totalWeight st sugg forb
          from rfl]
      exact spec_totalWeight_nonneg st sugg forb hw
    rw [hbase, hE']
    simp only [spec_walk, if_pos hr0]
    exact spec_walk_mem st.backendWeight
      (rand2 * twLoop st sugg forb st.numBackends) rest i (0 + st.backendWeight i)

/-! ## Helper lemmas: the rule-matching phase and the branch structure -/

theorem dbSuggested_nonneg (st : LBState) (h : 0 ≤ dbSuggested st) :
    0 ≤ dbIndexDb st := by
  unfold dbSuggested at h
  unfold dbIndexDb
  by_cases hc : st.slMode ∧ st.hasDbRedirect ∧ 0 ≤ st.dbMatchIndex
  · rw [if_pos ⟨hc.1, hc.2.1⟩]; exact hc.2.2
  · rw [if_neg hc] at h; omega

theorem computeSuggested_iapNeg (st : LBState) (idb iap sugg : Int)
    (h : computeSuggested st = (idb, iap, sugg)) (hi : iap < 0) (hs : 0 ≤ sugg) :
    0 ≤ idb := by
  unfold computeSuggested at h
  by_cases h1 : st.slMode ∧ st.hasAppRedirect ∧ st.appNameSet
  · rw [if_pos h1] at h
    by_cases h2 : (0 : Int) ≤ st.appMatchIndex
    · rw [if_pos h2] at h
      simp only [Prod.mk.injEq] at h
      omega
    · rw [if_neg h2] at h
      simp only [Prod.mk.injEq] at h
      obtain ⟨hidb, _, hsugg⟩ := h
      rw [← hidb]
      exact dbSuggested_nonneg st (hsugg ▸ hs)
  · rw [if_neg h1] at h
    simp only [Prod.mk.injEq] at h
    obtain ⟨hidb, _, hsugg⟩ := h
    rw [← hidb]
    exact dbSuggested_nonneg st (hsugg ▸ hs)

theorem select_reduces (st : LBState) (idb iap sugg : Int) (r1 rand2 : ℚ)
    (h : computeSuggested st = (idb, iap, sugg)) :
    selectLoadBalancingNode st r1 rand2 = selectAfterRules st idb iap sugg r1 rand2 := by
  unfold selectLoadBalancingNode
  rw [h]

theorem select_direct_hit (st : LBState) (r1 rand2 : ℚ) (idb iap sugg : Int)
    (h : computeSuggested st = (idb, iap, sugg)) (hs : 0 ≤ sugg)
    (hr : r1 ≤ (if 0 ≤ iap then st.appTokenWeight else st.dbTokenWeight)) :
    selectLoadBalancingNode st r1 rand2 = sugg := by
  rw [select_reduces st idb iap sugg r1 rand2 h]
  unfold selectAfterRules
  rw [if_pos hs]
  by_cases hiap : 0 ≤ iap
  · rw [if_pos hiap] at hr
    rw [if_pos (Or.inr ⟨hiap, hr⟩)]
  · rw [if_neg hiap] at hr
    have hidb : 0 ≤ idb := computeSuggested_iapNeg st idb iap sugg h (by omega) hs
    rw [if_pos (Or.inl ⟨hidb, hr⟩)]

theorem select_missed_hit (st : LBState) (idb iap sugg : Int) (r1 rand2 : ℚ)
    (h : computeSuggested st = (idb, iap, sugg)) (hs : 0 ≤ sugg)
    (hc : ¬ ((0 ≤ idb ∧ r1 ≤ st.dbTokenWeight) ∨ (0 ≤ iap ∧ r1 ≤ st.appTokenWeight))) :
    selectLoadBalancingNode st r1 rand2 = fallbackSelect st sugg sugg rand2 := by
  rw [select_reduces st idb iap sugg r1 rand2 h]
  unfold selectAfterRules
  rw [if_pos hs, if_neg hc]

theorem select_standby_fallthrough (st : LBState) (idb iap : Int) (r1 rand2 : ℚ)
    (h : computeSuggested st = (idb, iap, -1))
    (hc : ¬ ((0 ≤ idb ∧ st.dbTokenWeight < r1) ∨ (0 ≤ iap ∧ st.appTokenWeight < r1))) :
    selectLoadBalancingNode st r1 rand2 = fallbackSelect st (-1) (-2) rand2 := by
  rw [select_reduces st idb iap (-1) r1 rand2 h]
  unfold selectAfterRules
  rw [if_neg (by omega), if_pos rfl, if_neg hc]

/-! ## Claim theorems: the load-balance selector -/

/-- Claim C2: in `select_load_balancing_node`, the weighted random
fallback computes `total_weight` over every backend `i` with
`VALID_BACKEND_RAW(i)`, excluding the forbidden node and, when
`suggested == -1`, also excluding `PRIMARY_NODE_ID`; it then iterates `i`
in ascending order with the same exclusions, skipping zero-weight nodes,
and returns the last index `i` for which the draw was at least the running
sum before adding that node's weight (breaking as soon as the draw falls
below the running sum); if no eligible node has non-zero weight it returns
`MASTER_NODE_ID`. -/
theorem c2_weighted_fallback :
    ∀ (st : LBState) (sugg forb : Int) (rand2 : ℚ),
      twLoop st sugg forb st.numBackends = spec_totalWeight st sugg forb ∧
      fallbackSelect st sugg forb rand2 =
        spec_lastHit (rand2 * spec_totalWeight st sugg forb)
          (spec_presums st.backendWeight (spec_eligibles st sugg forb) 0)
          st.masterNodeId ∧
      (spec_eligibles st sugg forb = [] →
        fallbackSelect st sugg forb rand2 = st.masterNodeId) := by
  intro st sugg forb rand2
  refine ⟨?_, fallbackSelect_char st sugg forb rand2, ?_⟩
  · rw [twLoop_eq_spec]; rfl
  · intro hE
    rw [fallbackSelect_char st sugg forb rand2, hE]
    rfl

/-- Witness for claim C2: on an empty cluster the eligible list is empty
and the fallback returns `MASTER_NODE_ID`. -/
theorem c2_weighted_fallback_witness :
    fallbackSelect c2WitSt (-1) (-2) 0 = c2WitSt.masterNodeId :=
  (c2_weighted_fallback c2WitSt (-1) (-2) 0).2.2 rfl

/-- Counterexample to claim C3 as stated: on a one-node cluster whose only
node is both primary and master, a matched `"standby"` rule (weight 1,
draw 0, so the execution falls through to the fallback) makes the
selector return `PRIMARY_NODE_ID` itself, via the degenerate
`MASTER_NODE_ID` default. -/
theorem c3_counterexample :
    computeSuggested c3St = (0, -1, -1) ∧
    (0 : ℚ) ≤ c3St.dbTokenWeight ∧
    selectLoadBalancingNode c3St 0 0 = c3St.primaryNodeId := by
  refine ⟨rfl, by decide, rfl⟩

/-- Claim C3 (amended): when a matched rule resolved to the any-standby
intent (`suggested == -1`) and execution falls through to the fallback
draw, the returned id differs from `PRIMARY_NODE_ID` whenever some
non-primary raw-valid backend of positive weight exists; when none exists
the fallback returns `MASTER_NODE_ID`, which may coincide with the
primary. -/
theorem c3_standby_fallback_avoids_primary :
    ∀ (st : LBState) (r1 rand2 : ℚ) (idb iap : Int),
      computeSuggested st = (idb, iap, -1) →
      ¬ ((0 ≤ idb ∧ st.dbTokenWeight < r1) ∨ (0 ≤ iap ∧ st.appTokenWeight < r1)) →
      0 ≤ rand2 → (∀ i, 0 ≤ st.backendWeight i) →
      (spec_eligibles st (-1) (-2) ≠ [] →
         selectLoadBalancingNode st r1 rand2 ≠ st.primaryNodeId) ∧
      (spec_eligibles st (-1) (-2) = [] →
         selectLoadBalancingNode st r1 rand2 = st.masterNodeId) := by
  intro st r1 rand2 idb iap h hc hr hw
  have hred := select_standby_fallthrough st idb iap r1 rand2 h hc
  have hmm := fallbackSelect_mem_or_master st (-1) (-2) rand2 hr hw
  constructor
  · intro hE
    rw [hred]
    have hmem := hmm.2 hE
    have hprops := mem_spec_eligibles st (-1) (-2) _ hmem
    intro hcon
    exact hprops.1 (Or.inl ⟨rfl, hcon⟩)
  · intro hE
    rw [hred]
    exact hmm.1 hE

/-- Witness for amended claim C3: with a real standby available the
fallback avoids the primary. -/
theorem c3_standby_fallback_witness :
    selectLoadBalancingNode c3WitSt 0 0 ≠ c3WitSt.primaryNodeId :=
  (c3_standby_fallback_avoids_primary c3WitSt 0 0 0 (-1) rfl
    (by decide) (by norm_num) (fun _ => by norm_num [c3WitSt])).1 (by decide)

/-- Claim C6: when a rule suggested a concrete node but the draw exceeded
the rule weight, so that `no_load_balance_node_id := suggested` was
recorded, the id finally returned is never the forbidden node whenever
some other raw-valid backend of positive weight is eligible; otherwise
`MASTER_NODE_ID` is returned. -/
theorem c6_forbidden_not_returned :
    ∀ (st : LBState) (r1 rand2 : ℚ) (idb iap sugg : Int),
      computeSuggested st = (idb, iap, sugg) → 0 ≤ sugg →
      ¬ ((0 ≤ idb ∧ r1 ≤ st.dbTokenWeight) ∨ (0 ≤ iap ∧ r1 ≤ st.appTokenWeight)) →
      0 ≤ rand2 → (∀ i, 0 ≤ st.backendWeight i) →
      (spec_eligibles st sugg sugg ≠ [] →
         selectLoadBalancingNode st r1 rand2 ≠ sugg) ∧
      (spec_eligibles st sugg sugg = [] →
         selectLoadBalancingNode st r1 rand2 = st.masterNodeId) := by
  intro st r1 rand2 idb iap sugg h hs hc hr hw
  have hred := select_missed_hit st idb iap sugg r1 rand2 h hs hc
  have hmm := fallbackSelect_mem_or_master st sugg sugg rand2 hr hw
  constructor
  · intro hE
    rw [hred]
    have hmem := hmm.2 hE
    have hprops := mem_spec_eligibles st sugg sugg _ hmem
    intro hcon
    exact hprops.1 (Or.inr hcon)
  · intro hE
    rw [hred]
    exact hmm.1 hE

/-- Witness for claim C6: node 1 is suggested at weight 0, the draw 1
misses, and the fallback picks a node other than 1. -/
theorem c6_forbidden_witness :
    selectLoadBalancingNode c6St 1 0 ≠ 1 :=
  (c6_forbidden_not_returned c6St 1 0 0 (-1) 1 rfl (by norm_num)
    (by decide) (by norm_num) (fun _ => by norm_num [c6St])).1 (by decide)

/-- Claim C7: with a concrete suggested node, the draw is compared against
the active rule's weight (the application-name rule when
`index_app >= 0`, else the database rule) and a draw within the weight
returns the suggestion at once; in particular with the database rule
`("^app$", "2", 1.0)` matched and backend 2 valid the selector returns 2
for every draw in `[0, 1]`. -/
theorem c7_direct_hit :
    (∀ (st : LBState) (r1 rand2 : ℚ) (idb iap sugg : Int),
       computeSuggested st = (idb, iap, sugg) → 0 ≤ sugg →
       r1 ≤ (if 0 ≤ iap then st.appTokenWeight else st.dbTokenWeight) →
       selectLoadBalancingNode st r1 rand2 = sugg) ∧
    (∀ r1 rand2 : ℚ, r1 ≤ 1 → selectLoadBalancingNode c7St r1 rand2 = 2) := by
  constructor
  · intro st r1 rand2 idb iap sugg h hs hr
    exact select_direct_hit st r1 rand2 idb iap sugg h hs hr
  · intro r1 rand2 hr
    refine select_direct_hit c7St r1 rand2 0 (-1) 2 rfl (by norm_num) ?_
    rw [if_neg (by omega)]
    exact hr

/-- Witness for claim C7: the concrete scenario with draw 1/3. -/
theorem c7_direct_hit_witness :
    selectLoadBalancingNode c7St ((1 : ℚ)/3) 0 = 2 :=
  c7_direct_hit.2 ((1 : ℚ)/3) 0 (by norm_num)

/-- Counterexample to claim C8 as stated: with `PRIMARY_NODE_ID = -1` and
`MASTER_NODE_ID = 1`, resolving `"primary"` yields node 0 (the `atoi`
fallthrough), not `MASTER_NODE_ID`. -/
theorem c8_counterexample :
    c8St.primaryNodeId < 0 ∧ choose_db_node_id c8St "primary" = 0 ∧
    c8St.masterNodeId = 1 ∧
    choose_db_node_id c8St "primary" ≠ c8St.masterNodeId :=
  ⟨by decide, rfl, rfl, by decide⟩

/-- Claim C8 (amended): `choose_db_node_id` maps `"primary"` to
`PRIMARY_NODE_ID` when it is non-negative, and otherwise falls through to
integer parsing of `"primary"`, which parses as 0, so it yields node 0
when `NUM_BACKENDS > 0` and `MASTER_NODE_ID` otherwise; `"standby"` maps
to `-1`; any other string maps to its integer parse when inside
`[0, NUM_BACKENDS)` and to `MASTER_NODE_ID` otherwise. -/
theorem c8_token_resolution :
    ∀ (st : LBState) (s : String),
      (s = "primary" → 0 ≤ st.primaryNodeId →
         choose_db_node_id st s = st.primaryNodeId) ∧
      (s = "primary" → st.primaryNodeId < 0 →
         choose_db_node_id st s = (if 0 < st.numBackends then 0 else st.masterNodeId)) ∧
      (s = "standby" → choose_db_node_id st s = -1) ∧
      (s ≠ "primary" → s ≠ "standby" →
         choose_db_node_id st s =
           (if 0 ≤ atoiStr s ∧ atoiStr s < (st.numBackends : Int) then atoiStr s
            else st.masterNodeId)) := by
  intro st s
  refine ⟨?_, ?_, ?_, ?_⟩
  · intro hs hp
    unfold choose_db_node_id
    rw [if_pos ⟨hs, hp⟩]
  · intro hs hp
    subst hs
    unfold choose_db_node_id
    rw [if_neg (fun hcon => absurd hcon.2 (by omega))]
    rw [if_neg (by decide : ¬ (("primary" : String) = "standby"))]
    rw [show atoiStr "primary" = 0 from rfl]
    by_cases hn : 0 < st.numBackends
    · rw [if_pos hn, if_pos ⟨le_refl 0, by exact_mod_cast hn⟩]
    · have h0 : st.numBackends = 0 := by omega
      rw [if_neg hn, if_neg (by simp [h0])]
  · intro hs
    subst hs
    unfold choose_db_node_id
    rw [if_neg (fun hcon => absurd hcon.1 (by decide))]
    rw [if_pos rfl]
  · intro h1 h2
    unfold choose_db_node_id
    rw [if_neg (fun hcon => h1 hcon.1), if_neg h2]

/-- Witness for amended claim C8: the `"standby"` mapping on the concrete
topology. -/
theorem c8_token_resolution_witness :
    choose_db_node_id c8St "standby" = -1 :=
  ((c8_token_resolution c8St "standby").2.2.1) rfl

/-- The third overflow guard fires with the "database name is too long"
detail. -/
theorem mkStartup_error_third (u d : List Char)
    (h1 : ¬ u.length + 1 ≥ 1024 - 5)
    (h2 : ¬ (9 : Nat) ≥ 1024 - (5 + (u.length + 1)))
    (h3 : d.length + 1 ≥ 1024 - (5 + (u.length + 1) + 9)) :
    mkStartup u d = .error "database name is too long" := by
  simp only [mkStartup]
  rw [if_neg h1, if_neg h2, if_pos h3]

/-! ## Claim theorems: startup packet construction -/

/-- Counterexample to claim C1 as stated: for `user="bob"`,
`dbname="app"` the recorded packet length is 27 = 4 + 23 (the payload is
23 bytes, its final NUL included), not 4 + 22. -/
theorem c1_counterexample :
    startupRecordLen ("bob".toList) ("app".toList) = some 27 ∧ (27 : Nat) ≠ 4 + 22 :=
  ⟨rfl, by norm_num⟩

/-- Claim C1 (amended): every successful build serialises exactly
`"user" NUL <user> NUL "database" NUL <dbname> NUL` plus a final NUL after
the 4-byte protocol version, and records `packet_len = 4 + payload length`;
for `user="bob"`, `dbname="app"` the payload is the 23-byte sequence
`"user\0bob\0database\0app\0\0"` and the recorded length is 4 + 23 = 27. -/
theorem c1_startup_payload :
    (∀ (u d : List Char) (b : StartupBuild), mkStartup u d = .ok b →
       b.payload = startupPayloadSpec u d ∧ b.spLen = 4 + b.payload.length) ∧
    mkStartup ("bob".toList) ("app".toList) = .ok bobAppBuild ∧
    bobAppBuild.payload.length = 23 ∧ bobAppBuild.spLen = 4 + 23 := by
  refine ⟨?_, rfl, rfl, rfl⟩
  intro u d b h
  simp only [mkStartup] at h
  split_ifs at h with h1 h2 h3
  simp only [Except.ok.injEq] at h
  subst h
  refine ⟨rfl, ?_⟩
  have hlu : ("user".toList).length = 4 := rfl
  have hld : ("database".toList).length = 8 := rfl
  simp only [startupPayloadSpec, List.length_append, List.length_cons,
    List.length_nil, hlu, hld]
  omega

/-- Witness for amended claim C1: the `bob`/`app` instance. -/
theorem c1_startup_payload_witness :
    bobAppBuild.payload = startupPayloadSpec ("bob".toList) ("app".toList) ∧
    bobAppBuild.spLen = 4 + bobAppBuild.payload.length :=
  c1_startup_payload.1 ("bob".toList) ("app".toList) bobAppBuild rfl

/-- Counterexample to claim C5 as stated: a 1005-byte database name
overflows at the third guard, whose message is "database name is too
long", not "user name is too long". -/
theorem c5_counterexample :
    mkStartup ("bob".toList) (List.replicate 1005 'd') =
      Except.error "database name is too long" ∧
    ("database name is too long" : String) ≠ "user name is too long" := by
  have hb : ("bob".toList).length = 3 := rfl
  have hrep : (List.replicate 1005 'd').length = 1005 := List.length_replicate 1005 'd'
  exact ⟨mkStartup_error_third _ _ (by omega) (by omega) (by omega), by decide⟩

/-- Claim C5 (amended): the overflow detected while appending the user
name and the overflow detected while appending the `"database"` keyword
both raise the verbatim detail "user name is too long"; the overflow
detected while appending the database name raises "database name is too
long". -/
theorem c5_overflow_messages :
    ∀ (u d : List Char),
      (u.length + 1 ≥ 1019 → mkStartup u d = .error "user name is too long") ∧
      (u.length + 1 < 1019 → (9 : Nat) ≥ 1024 - (5 + (u.length + 1)) →
         mkStartup u d = .error "user name is too long") ∧
      (u.length + 1 < 1019 → (9 : Nat) < 1024 - (5 + (u.length + 1)) →
         d.length + 1 ≥ 1024 - (5 + (u.length + 1) + 9) →
         mkStartup u d = .error "database name is too long") := by
  intro u d
  refine ⟨?_, ?_, ?_⟩
  · intro h1
    simp only [mkStartup]
    rw [if_pos (by omega)]
  · intro h1 h2
    simp only [mkStartup]
    rw [if_neg (by omega), if_pos (by omega)]
  · intro h1 h2 h3
    simp only [mkStartup]
    rw [if_neg (by omega), if_neg (by omega), if_pos (by omega)]

/-- Witness for amended claim C5: a 1018-byte user name trips the first
guard. -/
theorem c5_overflow_witness :
    mkStartup (List.replicate 1018 'u') ("x".toList) =
      Except.error "user name is too long" :=
  (c5_overflow_messages (List.replicate 1018 'u') ("x".toList)).1
    (by norm_num [List.length_replicate])

/-- Claim C10: whenever all three overflow guards pass, the running
offset satisfies `len <= 1023` at the moment the final NUL sentinel is
written by `data[len++] = '\0'`, so the write stays inside the 1024-byte
buffer. -/
theorem c10_sentinel_within_buffer :
    ∀ (u d : List Char) (b : StartupBuild), mkStartup u d = .ok b →
      b.sentinelIndex ≤ 1023 := by
  intro u d b h
  simp only [mkStartup] at h
  split_ifs at h with h1 h2 h3
  simp only [Except.ok.injEq] at h
  subst h
  dsimp only
  omega

/-- Witness for claim C10: the `bob`/`app` build writes its sentinel at
offset 22. -/
theorem c10_sentinel_witness :
    mkStartup ("bob".toList) ("app".toList) = Except.ok bobAppBuild ∧
    bobAppBuild.sentinelIndex ≤ 1023 :=
  ⟨rfl, c10_sentinel_within_buffer ("bob".toList) ("app".toList) bobAppBuild rfl⟩

/-! ## Claim theorems: version parsing and the version cache -/

/-- Claim C4: `Pgversion` parses `"PostgreSQL 12.3 on ..."` to
`(120, 3)`, `"PostgreSQL 9.6.24 on ..."` to `(96, 24)`, and
`"PostgreSQL 12beta1 on ..."` to major 120 without tripping on the `b`;
it is fatal whenever the first parsed segment is below 6 or above 100
(so `"PostgreSQL 5.0 on ..."` is fatal) or the parsed minor is negative
or above 100. -/
theorem c4_version_parse :
    pgparse "PostgreSQL 12.3 on x86_64-pc-linux-gnu" = .ok (120, 3) ∧
    pgparse "PostgreSQL 9.6.24 on x86_64-pc-linux-gnu" = .ok (96, 24) ∧
    pgparse "PostgreSQL 12beta1 on x86_64-pc-linux-gnu" = .ok (120, 0) ∧
    pgparse "PostgreSQL 5.0 on x86_64-pc-linux-gnu" = .error () ∧
    (∀ (s : String) (v : Int), pgV1 s = some v → (v < 6 ∨ 100 < v) →
       pgparse s = .error ()) ∧
    (∀ (s : String) (m : Int), pgMinorOf s = some m → (m < 0 ∨ 100 < m) →
       pgparse s = .error ()) := by
  refine ⟨rfl, rfl, rfl, rfl, ?_, ?_⟩
  · intro s v hv hrange
    unfold pgV1 at hv
    unfold pgparse
    cases hfs : findAfterSpace s.toList with
    | none => rfl
    | some rest =>
      rw [hfs] at hv
      simp only [Option.map_some', Option.some.injEq] at hv
      dsimp only
      rw [hv, if_pos hrange]
  · intro s m hm hrange
    unfold pgMinorOf at hm
    unfold pgparse
    cases hfs : findAfterSpace s.toList with
    | none => rfl
    | some rest =>
      rw [hfs] at hm
      dsimp only at hm
      rw [Option.some.injEq] at hm
      dsimp only
      by_cases hv : (atoiChars (scanWhile ['.'] 9 rest).1 < 6 ∨
          100 < atoiChars (scanWhile ['.'] 9 rest).1)
      · rw [if_pos hv]
      · rw [if_neg hv, hm, if_pos hrange]

/-- Witness for claim C4: a major version of 3 is fatal. -/
theorem c4_version_parse_witness :
    pgparse "PostgreSQL 3.1 on sparc-sun-solaris" = .error () :=
  c4_version_parse.2.2.2.2.1 "PostgreSQL 3.1 on sparc-sun-solaris" 3 rfl
    (Or.inl (by norm_num))

/-- Claim C9: a populated version cache (`major != 0`) makes every call
return immediately with no relcache lookup or wire I/O, leaving the
record untouched and returning it byte-equal; and whatever a call
returns is exactly what it stores, so after the first successful
populating call every later call returns a record byte-equal to it. -/
theorem c9_version_cache :
    (∀ (c : PgVersionCache) (s : String), c.major ≠ 0 →
       pgversionCall c s = ⟨some c, c, false⟩) ∧
    (∀ (c : PgVersionCache) (s : String) (c' : PgVersionCache),
       (pgversionCall c s).ret = some c' → (pgversionCall c s).state = c') := by
  constructor
  · intro c s h
    unfold pgversionCall
    rw [if_pos h]
  · intro c s c' h
    unfold pgversionCall at h ⊢
    by_cases hm : c.major ≠ 0
    · rw [if_pos hm] at h ⊢
      dsimp only at h ⊢
      rw [Option.some.injEq] at h
      exact h
    · rw [if_neg hm] at h ⊢
      cases hp : pgparse s with
      | ok mm =>
        rw [hp] at h
        dsimp only at h ⊢
        rw [Option.some.injEq] at h
        exact h
      | error e =>
        rw [hp] at h
        dsimp only at h
        exact Option.noConfusion h

/-- Witness for claim C9: a populated cache short-circuits. -/
theorem c9_version_cache_witness :
    pgversionCall ⟨120, 3, "PostgreSQL 12.3"⟩ "ignored" =
      ⟨some ⟨120, 3, "PostgreSQL 12.3"⟩, ⟨120, 3, "PostgreSQL 12.3"⟩, false⟩ :=
  c9_version_cache.1 ⟨120, 3, "PostgreSQL 12.3"⟩ "ignored" (by norm_num)

end PgpoolVerify
